import Mathlib

/-!
Shallow embedding of the GRU/LSTM hourly-energy-forecasting notebook.

The notebook's preprocessing loop, per-file min-max scalers, lookback
windower, train/test split, batch iterator with `drop_last=True`, the two
model classes (`GRUNet`, `LSTMNet`) and the `evaluate` function are
translated here into executable Lean definitions.  Machine floats are
modelled by exact rational arithmetic; `int(0.1 * n)` becomes `n / 10` on
naturals; the recurrent cells themselves (`nn.GRU` / `nn.LSTM`) are
uninterpreted function parameters, as they are external library
functionality.
-/

namespace GruPred

/-- `lookback = 90` from the preprocessing cell. -/
def lookback : ℕ := 90

/-- `batch_size = 1024` from the DataLoader cell. -/
def batchSize : ℕ := 1024

/-- State of an sklearn `MinMaxScaler` after `fit` on a single column:
the observed minimum and maximum of that column. -/
structure MinMaxScaler where
  dataMin : ℚ
  dataMax : ℚ
deriving Repr, DecidableEq, Inhabited

/-- `MinMaxScaler.fit` on a column of values: record observed min/max. -/
def fitScaler (xs : List ℚ) : MinMaxScaler :=
  ⟨xs.foldr min (xs.headD 0), xs.foldr max (xs.headD 0)⟩

/-- sklearn's `scale_`: `1 / (max - min)`, with the zero-range guard
(`_handle_zeros_in_scale`) mapping a degenerate range to a unit scale. -/
def scaleFactor (s : MinMaxScaler) : ℚ :=
  if s.dataMax = s.dataMin then 1 else 1 / (s.dataMax - s.dataMin)

/-- `MinMaxScaler.transform` on one value (feature range `[0,1]`). -/
def trScale (s : MinMaxScaler) (x : ℚ) : ℚ := (x - s.dataMin) * scaleFactor s

/-- `MinMaxScaler.inverse_transform` on one value. -/
def invScale (s : MinMaxScaler) (y : ℚ) : ℚ := y / scaleFactor s + s.dataMin

/-- Column `j` of a table (`df.iloc[:, j]`). -/
def columnOf (tbl : List (List ℚ)) (j : ℕ) : List ℚ := tbl.map (fun r => r.getD j 0)

/-- The consumption column (`df.iloc[:, 0]`), on which `label_sc` is fit. -/
def col0 (tbl : List (List ℚ)) : List ℚ := columnOf tbl 0

/-- `sc.fit_transform(df.values)`: fit one min-max scaler per column and
map every entry of the table through its column's scaler. -/
def transformTable (tbl : List (List ℚ)) : List (List ℚ) :=
  tbl.map (fun r => (List.range r.length).map
    (fun j => trScale (fitScaler (columnOf tbl j)) (r.getD j 0)))

/-- The windowing loop: `inputs[i-lookback] = data[i-lookback:i]` for
`i` in `range(lookback, len(data))`, i.e. window `i` (0-indexed) is the
slice of rows `[i, i+L)` of the scaled table. -/
def windows (data : List (List ℚ)) (L : ℕ) : List (List (List ℚ)) :=
  (List.range (data.length - L)).map (fun i => (data.drop i).take L)

/-- The label loop: `labels[i-lookback] = data[i, 0]`, i.e. label `i`
is row `i+L`'s column-0 (consumption) value of the scaled table. -/
def labelsOf (data : List (List ℚ)) (L : ℕ) : List ℚ :=
  (List.range (data.length - L)).map (fun i => (data.getD (i + L) []).getD 0 0)

/-- Python slice `l[:-t]` for a nonnegative `t` (in the source `t` is
`test_portion ≥ 0`): for `t = 0` this is `l[:0] = []`, otherwise the
first `len - t` elements (clamped at zero). -/
def sliceToNeg (l : List α) (t : ℕ) : List α :=
  if t = 0 then [] else l.take (l.length - t)

/-- Python slice `l[-t:]` for a nonnegative `t`: for `t = 0` this is
`l[0:] = l`, otherwise the last `t` elements (the whole list if `t`
exceeds the length). -/
def sliceFromNeg (l : List α) (t : ℕ) : List α :=
  if t = 0 then l else l.drop (l.length - t)

/-- `test_portion = int(0.1 * len(inputs))` in exact arithmetic:
truncation of `n/10`, i.e. floor division by 10. -/
def testPortion (n : ℕ) : ℕ := n / 10

/-- Per-file result of the preprocessing loop body. -/
structure ProcResult where
  trainX : List (List (List ℚ))
  trainY : List ℚ
  testX : List (List (List ℚ))
  testY : List ℚ
deriving Repr, DecidableEq, Inhabited

/-- One iteration of the preprocessing loop after scaling: allocate the
window/label arrays (`np.zeros` raises `ValueError: negative dimensions
are not allowed` when `len(data) - lookback < 0`), fill them, and split
with `inputs[:-test_portion]` / `inputs[-test_portion:]`. -/
def processFile (data : List (List ℚ)) (L : ℕ) : Except String ProcResult :=
  if data.length < L then .error "negative dimensions are not allowed"
  else
    let inp := windows data L
    let lab := labelsOf data L
    let t := testPortion inp.length
    .ok ⟨sliceToNeg inp t, sliceToNeg lab t, sliceFromNeg inp t, sliceFromNeg lab t⟩

/-- Accumulated state of the whole preprocessing loop: the merged
training pool, the per-file test pool (`test_x`/`test_y`, insertion
order), and the `label_scalers` dictionary (insertion order). -/
structure PreResult where
  trainX : List (List (List ℚ))
  trainY : List ℚ
  pool : List (String × List (List (List ℚ)) × List ℚ)
  scalers : List (String × MinMaxScaler)
deriving Repr, DecidableEq, Inhabited

/-- The whole preprocessing loop over the (already filtered) files, each
given as a name and its raw table with consumption in column 0: fit and
store that file's label scaler, scale the table, window it, split it,
append the training part to the global pool and record the test part
under the file's name. -/
def preprocessAll (L : ℕ) : List (String × List (List ℚ)) → Except String PreResult
  | [] => .ok ⟨[], [], [], []⟩
  | f :: fs =>
    match processFile (transformTable f.2) L with
    | .error e => .error e
    | .ok r =>
      match preprocessAll L fs with
      | .error e => .error e
      | .ok rest =>
        .ok ⟨r.trainX ++ rest.trainX, r.trainY ++ rest.trainY,
             (f.1, r.testX, r.testY) :: rest.pool,
             (f.1, fitScaler (col0 f.2)) :: rest.scalers⟩

/-- `label_scalers[i]` dictionary lookup (the default branch is
unreachable in actual use, where every test-pool key was inserted). -/
def lookupScaler (m : List (String × MinMaxScaler)) (k : String) : MinMaxScaler :=
  match m.find? (fun p => p.1 == k) with
  | some p => p.2
  | none => ⟨0, 0⟩

/-- The `outputs` list built by `evaluate`: for each file key of the
test pool, the model's predictions on that file's test windows,
inverse-transformed by `label_scalers[i]` and flattened. -/
def evalOutputs (model : List (List (List ℚ)) → List ℚ)
    (scalers : List (String × MinMaxScaler))
    (pool : List (String × List (List (List ℚ)) × List ℚ)) : List (List ℚ) :=
  pool.map (fun e => (model e.2.1).map (fun v => invScale (lookupScaler scalers e.1) v))

/-- The `targets` list built by `evaluate`: each file's true test
labels, inverse-transformed by the same `label_scalers[i]`. -/
def evalTargets (scalers : List (String × MinMaxScaler))
    (pool : List (String × List (List (List ℚ)) × List ℚ)) : List (List ℚ) :=
  pool.map (fun e => e.2.2.map (fun v => invScale (lookupScaler scalers e.1) v))

/-- `np.mean` of a list of rationals. -/
def listMean (l : List ℚ) : ℚ := l.sum / l.length

/-- The elementwise expression `abs(outputs[i]-targets[i])/(targets[i]+outputs[i])/2`
of `evaluate`, which by Python's left-to-right evaluation is
`|o - t| / (t + o) / 2 = |o - t| / (2*(t + o))`. -/
def smapeTerm (o t : ℚ) : ℚ := |o - t| / (t + o) / 2

/-- One file's term `np.mean(abs(outputs[i]-targets[i])/(targets[i]+outputs[i])/2)`. -/
def smapeFile (o t : List ℚ) : ℚ := listMean (List.zipWith smapeTerm o t)

/-- The aggregate loop `sMAPE += np.mean(...)/len(outputs)` over all
files of the test pool. -/
def evalSMAPE (outs tgts : List (List ℚ)) : ℚ :=
  (List.zipWith smapeFile outs tgts).sum / outs.length

/-- The `evaluate` function's returned triple
`(outputs, targets, sMAPE)`. -/
def evaluateRun (model : List (List (List ℚ)) → List ℚ)
    (scalers : List (String × MinMaxScaler))
    (pool : List (String × List (List (List ℚ)) × List ℚ)) :
    List (List ℚ) × List (List ℚ) × ℚ :=
  let o := evalOutputs model scalers pool
  let t := evalTargets scalers pool
  (o, t, evalSMAPE o t)

/-- A torch tensor as a rose tree: a scalar, or a stack of subtensors
along the leading dimension. -/
inductive Tensor where
  | scalar : ℚ → Tensor
  | stack : List Tensor → Tensor
deriving Repr

/-- `t.shape`: the scalar has shape `[]`; a stack prepends its length to
the shape of its first element (torch tensors are regular). -/
def Tensor.shape : Tensor → List ℕ
  | .scalar _ => []
  | .stack [] => [0]
  | .stack (t :: ts) => (ts.length + 1) :: t.shape

/-- All scalar entries of a tensor, in row-major order. -/
def Tensor.entries : Tensor → List ℚ
  | .scalar q => [q]
  | .stack [] => []
  | .stack (t :: ts) => t.entries ++ (Tensor.stack ts).entries

/-- `torch.relu` on a 1-D tensor (a stack of scalars): zero floor. -/
def reluVec : Tensor → Tensor
  | .stack ts => .stack (ts.map (fun s => match s with
      | .scalar q => .scalar (max q 0)
      | x => x))
  | .scalar q => .scalar (max q 0)

/-- `seq[-1]`: the last element along a tensor's leading dimension. -/
def lastStepOf : Tensor → Tensor
  | .stack ss => ss.getLastD (.scalar 0)
  | t => t

/-- The scalar entries of a 1-D tensor, as a list. -/
def vecOf : Tensor → List ℚ
  | .stack ts => ts.map (fun s => match s with | .scalar q => q | _ => 0)
  | .scalar q => [q]

/-- Dot product of a weight row with a hidden vector. -/
def dot (w v : List ℚ) : ℚ := (List.zipWith (fun a b => a * b) w v).sum

/-- `nn.Linear(hidden_dim, 1)` applied to one hidden vector: a 1-D
result of length `output_dim = 1` holding `w · v + b`. -/
def fcRow (w : List ℚ) (b : ℚ) (t : Tensor) : Tensor :=
  .stack [.scalar (dot w (vecOf t) + b)]

/-- Map an operation over the leading (batch) dimension of a tensor. -/
def mapRows (f : Tensor → Tensor) : Tensor → Tensor
  | .stack rows => .stack (rows.map f)
  | t => t

/-- `out[:, -1]`: for every batch element take the last time step. -/
def sliceLast (t : Tensor) : Tensor := mapRows lastStepOf t

/-- `self.relu` on a 2-D `[batch, hidden]` tensor, elementwise. -/
def relu2 (t : Tensor) : Tensor := mapRows reluVec t

/-- `self.fc` on a 2-D `[batch, hidden]` tensor, row-wise, giving
`[batch, 1]`. -/
def fc2 (w : List ℚ) (b : ℚ) (t : Tensor) : Tensor := mapRows (fcRow w b) t

/-- `GRUNet.forward`: `out, h = self.gru(x, h); out = self.fc(self.relu(out[:,-1]))`.
The recurrent layer `nn.GRU` is an uninterpreted function parameter. -/
def GRUNet.forward (gruFn : Tensor → Tensor → Tensor × Tensor)
    (w : List ℚ) (b : ℚ) (x h : Tensor) : Tensor × Tensor :=
  let p := gruFn x h
  (fc2 w b (relu2 (sliceLast p.1)), p.2)

/-- `LSTMNet.forward`: identical shape pipeline, with the hidden state a
pair and `nn.LSTM` an uninterpreted function parameter. -/
def LSTMNet.forward (lstmFn : Tensor → Tensor × Tensor → Tensor × (Tensor × Tensor))
    (w : List ℚ) (b : ℚ) (x : Tensor) (h : Tensor × Tensor) :
    Tensor × (Tensor × Tensor) :=
  let p := lstmFn x h
  (fc2 w b (relu2 (sliceLast p.1)), p.2)

/-- `weight.new(n_layers, batch_size, hidden_dim).zero_()`: the all-zero
tensor of shape `[n, b, hd]`. -/
def zerosT (n b hd : ℕ) : Tensor :=
  .stack (List.replicate n (.stack (List.replicate b
    (.stack (List.replicate hd (.scalar 0))))))

/-- `GRUNet.init_hidden(batch_size)`: a single all-zero tensor shaped
`[n_layers, batch_size, hidden_dim]`. -/
def GRUNet.init_hidden (nLayers hiddenDim bs : ℕ) : Tensor :=
  zerosT nLayers bs hiddenDim

/-- `LSTMNet.init_hidden(batch_size)`: a pair of two such all-zero
tensors. -/
def LSTMNet.init_hidden (nLayers hiddenDim bs : ℕ) : Tensor × Tensor :=
  (zerosT nLayers bs hiddenDim, zerosT nLayers bs hiddenDim)

/-- The batch iterator `DataLoader(..., batch_size=b, drop_last=True)`
applied to an (already shuffled) list: full chunks of `b` elements,
dropping the final incomplete chunk. -/
def dropLastBatches (b : ℕ) (l : List α) : List (List α) :=
  if h : b = 0 ∨ l.length < b then [] else l.take b :: dropLastBatches b (l.drop b)
termination_by l.length
decreasing_by simp [List.length_drop]; omega

/-! ## Theorems -/

/-- C1: for the single pair prediction = 110, target = 100 (one file,
with an identity label scaler fit on range `[0,1]`), the `evaluate`
function returns the aggregate value `1/42 = 10/420`: the code divides
`abs(outputs-targets)` by `(targets+outputs)` and then by `2`, i.e. it
computes `|p-t| / (2*(t+p))`, one quarter of the sMAPE formula
`|p-t| / ((t+p)/2)` that the claim (and the printed metric name) state,
which would give `10/105`. -/
theorem c1_smape_code_value :
    (evaluateRun (fun _ => [110]) [("a", ⟨0, 1⟩)] [("a", [[[0]]], [100])]).2.2 = 1/42 ∧
    ((1 : ℚ)/42 ≠ 10/105) := by
  constructor
  · norm_num [evaluateRun, evalOutputs, evalTargets, evalSMAPE, smapeFile, smapeTerm,
      listMean, lookupScaler, invScale, scaleFactor, List.zipWith, List.find?]
  · norm_num

/-- C4: with a non-degenerate observed range, applying the label scaler
transform and then its inverse recovers any value of the column
exactly. -/
theorem c4_label_scaler_roundtrip (xs : List ℚ) (x : ℚ)
    (hx : x ∈ xs)
    (hnd : (fitScaler xs).dataMin ≠ (fitScaler xs).dataMax) :
    invScale (fitScaler xs) (trScale (fitScaler xs) x) = x := by
  have hne : (fitScaler xs).dataMax ≠ (fitScaler xs).dataMin := fun h => hnd h.symm
  have hsub : (fitScaler xs).dataMax - (fitScaler xs).dataMin ≠ 0 := sub_ne_zero.2 hne
  unfold invScale trScale scaleFactor
  rw [if_neg hne]
  field_simp

/-- C4 witness: the scaler fit on `[1, 3]` round-trips the value 3. -/
theorem c4_witness :
    (3 : ℚ) ∈ [(1 : ℚ), 3] ∧
    (fitScaler [(1 : ℚ), 3]).dataMin ≠ (fitScaler [(1 : ℚ), 3]).dataMax ∧
    invScale (fitScaler [(1 : ℚ), 3]) (trScale (fitScaler [(1 : ℚ), 3]) 3) = 3 := by
  refine ⟨by norm_num, by norm_num [fitScaler], ?_⟩
  exact c4_label_scaler_roundtrip [(1 : ℚ), 3] 3 (by norm_num) (by norm_num [fitScaler])

/-- C8 counterexample: a file with exactly `T = lookback = 90` rows has
non-positive window count `T - L = 0`, yet `processFile` succeeds and
silently yields empty window and label arrays (all four pools empty),
instead of the explicit rejection the claim asserts. -/
theorem c8_counterexample :
    processFile (List.replicate 90 ([0] : List ℚ)) 90 =
      Except.ok ⟨[], [], [], []⟩ := rfl

/-- C8 (amended): only a file with strictly fewer rows than the
lookback makes processing fail, with the negative-dimensions allocation
error raised by the window-array allocation. -/
theorem c8_short_file_rejected (data : List (List ℚ)) (L : ℕ)
    (h : data.length < L) :
    processFile data L = Except.error "negative dimensions are not allowed" := by
  simp [processFile, h]

/-- C8 witness: a 10-row file against lookback 90 is rejected. -/
theorem c8_witness :
    (List.replicate 10 ([0] : List ℚ)).length < 90 ∧
    processFile (List.replicate 10 ([0] : List ℚ)) 90 =
      Except.error "negative dimensions are not allowed" := by
  refine ⟨by simp, ?_⟩
  exact c8_short_file_rejected (List.replicate 10 ([0] : List ℚ)) 90 (by simp)

/-- C9: a file whose window count `N = T - L` satisfies `0 < N ≤ 9` gets
`test_portion = int(0.1*N) = 0`, so the slice `inputs[:-0] = []`
contributes nothing to the training pool while `inputs[-0:]` puts all
`N` windows and labels into the test pool. -/
theorem c9_small_file_all_test (data : List (List ℚ)) (L : ℕ)
    (hL : L ≤ data.length)
    (hpos : 0 < data.length - L)
    (hle : data.length - L ≤ 9) :
    processFile data L = Except.ok ⟨[], [], windows data L, labelsOf data L⟩ ∧
    (windows data L).length = data.length - L := by
  have hnl : ¬ data.length < L := by omega
  have hlen : (windows data L).length = data.length - L := by simp [windows]
  have ht : testPortion (windows data L).length = 0 := by
    rw [hlen]; exact Nat.div_eq_of_lt (by omega)
  refine ⟨?_, hlen⟩
  simp [processFile, hnl, ht, sliceToNeg, sliceFromNeg]

/-- C9 witness: 95 rows with lookback 90 give `N = 5` windows, all of
which land in the test pool and none in the training pool. -/
theorem c9_witness :
    90 ≤ (List.replicate 95 ([0] : List ℚ)).length ∧
    0 < (List.replicate 95 ([0] : List ℚ)).length - 90 ∧
    (List.replicate 95 ([0] : List ℚ)).length - 90 ≤ 9 ∧
    (processFile (List.replicate 95 ([0] : List ℚ)) 90 =
      Except.ok ⟨[], [], windows (List.replicate 95 ([0] : List ℚ)) 90,
        labelsOf (List.replicate 95 ([0] : List ℚ)) 90⟩ ∧
     (windows (List.replicate 95 ([0] : List ℚ)) 90).length =
       (List.replicate 95 ([0] : List ℚ)).length - 90) := by
  refine ⟨by simp, by simp, by simp, ?_⟩
  exact c9_small_file_all_test (List.replicate 95 ([0] : List ℚ)) 90
    (by simp) (by simp) (by simp)

/-- C2 counterexample: a file of 101 rows with lookback 90 has `N = 11`
windows; the claim's `ceil(0.1*11) = (11+9)/10 = 2`, but the code holds
out only `int(0.1*11) = 1` window. -/
theorem c2_counterexample :
    (processFile (List.replicate 101 ([0] : List ℚ)) 90).map
      (fun r => r.testX.length) = Except.ok 1 ∧
    (1 : ℕ) ≠ (11 + 9) / 10 := by
  exact ⟨rfl, by decide⟩

/-- C2 (amended): the test count is `int(0.1*N) = floor(N/10)`, not the
ceiling; provided `N ≥ 10` (so the count is at least one), the test
windows are exactly the chronologically last `floor(N/10)` windows and
everything before them is the contribution of the file to the training
pool. -/
theorem c2_split_floor (data : List (List ℚ)) (L : ℕ)
    (hL : L ≤ data.length)
    (h10 : 10 ≤ data.length - L) :
    ∃ r, processFile data L = Except.ok r ∧
      r.testX.length = (data.length - L) / 10 ∧
      r.testX = (windows data L).drop
        ((data.length - L) - (data.length - L) / 10) ∧
      r.trainX = (windows data L).take
        ((data.length - L) - (data.length - L) / 10) ∧
      r.trainX ++ r.testX = windows data L ∧
      r.trainY ++ r.testY = labelsOf data L := by
  have hnl : ¬ data.length < L := by omega
  have hlen : (windows data L).length = data.length - L := by simp [windows]
  have hlab : (labelsOf data L).length = data.length - L := by simp [labelsOf]
  have ht : testPortion (windows data L).length = (data.length - L) / 10 := by
    rw [hlen]; rfl
  have htpos : (data.length - L) / 10 ≠ 0 :=
    Nat.pos_iff_ne_zero.1 (Nat.div_pos h10 (by norm_num))
  have hdle : (data.length - L) / 10 ≤ data.length - L := Nat.div_le_self _ _
  have hpf : processFile data L = Except.ok
      ⟨sliceToNeg (windows data L) ((data.length - L) / 10),
       sliceToNeg (labelsOf data L) ((data.length - L) / 10),
       sliceFromNeg (windows data L) ((data.length - L) / 10),
       sliceFromNeg (labelsOf data L) ((data.length - L) / 10)⟩ := by
    simp [processFile, hnl, ht]
  refine ⟨_, hpf, ?_, ?_, ?_, ?_, ?_⟩
  · simp only [sliceFromNeg, if_neg htpos, List.length_drop, hlen]
    omega
  · simp [sliceFromNeg, if_neg htpos, hlen]
  · simp [sliceToNeg, if_neg htpos, hlen]
  · simp [sliceToNeg, sliceFromNeg, if_neg htpos, hlen]
  · simp [sliceToNeg, sliceFromNeg, if_neg htpos, hlab]

/-- C2 witness: 101 rows with lookback 90 (`N = 11`): one window held
out, the last one, with the first ten going to the training pool. -/
theorem c2_witness :
    90 ≤ (List.replicate 101 ([0] : List ℚ)).length ∧
    10 ≤ (List.replicate 101 ([0] : List ℚ)).length - 90 ∧
    (∃ r, processFile (List.replicate 101 ([0] : List ℚ)) 90 = Except.ok r ∧
      r.testX.length = ((List.replicate 101 ([0] : List ℚ)).length - 90) / 10 ∧
      r.testX = (windows (List.replicate 101 ([0] : List ℚ)) 90).drop
        (((List.replicate 101 ([0] : List ℚ)).length - 90) -
          ((List.replicate 101 ([0] : List ℚ)).length - 90) / 10) ∧
      r.trainX = (windows (List.replicate 101 ([0] : List ℚ)) 90).take
        (((List.replicate 101 ([0] : List ℚ)).length - 90) -
          ((List.replicate 101 ([0] : List ℚ)).length - 90) / 10) ∧
      r.trainX ++ r.testX = windows (List.replicate 101 ([0] : List ℚ)) 90 ∧
      r.trainY ++ r.testY = labelsOf (List.replicate 101 ([0] : List ℚ)) 90) := by
  refine ⟨by simp, by simp, ?_⟩
  exact c2_split_floor (List.replicate 101 ([0] : List ℚ)) 90 (by simp) (by simp)

/-- C3: with `T > L` the windower builds exactly `T - L` windows and
labels; window `i` has length `L`, its row `j` is scaled row `i + j`,
and label `i` is scaled row `i + L` column 0. -/
theorem c3_windower (data : List (List ℚ)) (L : ℕ) (hT : L < data.length) :
    (windows data L).length = data.length - L ∧
    (labelsOf data L).length = data.length - L ∧
    ∀ i, i < data.length - L →
      ((windows data L).getD i []).length = L ∧
      (∀ j, j < L → ((windows data L).getD i []).getD j [] = data.getD (i + j) []) ∧
      (labelsOf data L).getD i 0 = (data.getD (i + L) []).getD 0 0 := by
  refine ⟨by simp [windows], by simp [labelsOf], ?_⟩
  intro i hi
  have hwin : (windows data L).getD i [] = (data.drop i).take L := by
    unfold windows
    rw [List.getD_eq_get?, List.get?_map, List.get?_range hi]
    rfl
  refine ⟨?_, ?_, ?_⟩
  · rw [hwin, List.length_take, List.length_drop]
    omega
  · intro j hj
    rw [hwin, List.getD_eq_get?, List.get?_take hj, List.get?_drop, List.getD_eq_get?]
  · unfold labelsOf
    rw [List.getD_eq_get?, List.get?_map, List.get?_range hi]
    rfl

/-- A concrete five-row, one-column scaled table for the C3 witness. -/
def dataW3 : List (List ℚ) := [[0], [1], [2], [3], [4]]

/-- C3 witness: the windower on a five-row table with lookback 2. -/
theorem c3_witness :
    2 < dataW3.length ∧
    ((windows dataW3 2).length = dataW3.length - 2 ∧
     (labelsOf dataW3 2).length = dataW3.length - 2 ∧
     ∀ i, i < dataW3.length - 2 →
       ((windows dataW3 2).getD i []).length = 2 ∧
       (∀ j, j < 2 → ((windows dataW3 2).getD i []).getD j [] = dataW3.getD (i + j) []) ∧
       (labelsOf dataW3 2).getD i 0 = (dataW3.getD (i + 2) []).getD 0 0) :=
  ⟨by simp [dataW3], c3_windower dataW3 2 (by simp [dataW3])⟩

lemma dropLastBatches_eq_nil {α : Type} (b : ℕ) (l : List α) (h : l.length < b) :
    dropLastBatches b l = [] := by
  rw [dropLastBatches]
  simp [h]

lemma dropLastBatches_eq_cons {α : Type} (b : ℕ) (l : List α)
    (hb : 0 < b) (h : b ≤ l.length) :
    dropLastBatches b l = l.take b :: dropLastBatches b (l.drop b) := by
  rw [dropLastBatches, dif_neg]
  push_neg
  exact ⟨by omega, by omega⟩

lemma dropLastBatches_spec {α : Type} (b : ℕ) (hb : 0 < b) :
    ∀ (n : ℕ) (l : List α), l.length ≤ n →
      (dropLastBatches b l).length = l.length / b ∧
      (∀ bt ∈ dropLastBatches b l, bt.length = b) ∧
      (dropLastBatches b l).flatten = l.take (b * (l.length / b)) := by
  intro n
  induction n with
  | zero =>
    intro l hl
    have h0 : l.length < b := by omega
    rw [dropLastBatches_eq_nil b l h0]
    simp [Nat.div_eq_of_lt h0]
  | succ n ih =>
    intro l hl
    by_cases h : l.length < b
    · rw [dropLastBatches_eq_nil b l h]
      simp [Nat.div_eq_of_lt h]
    · push_neg at h
      rw [dropLastBatches_eq_cons b l hb h]
      have hdl : (l.drop b).length ≤ n := by
        rw [List.length_drop]; omega
      obtain ⟨ih1, ih2, ih3⟩ := ih (l.drop b) hdl
      have hdiv : l.length / b = (l.length - b) / b + 1 := Nat.div_eq_sub_div hb h
      refine ⟨?_, ?_, ?_⟩
      · simp only [List.length_cons, ih1, List.length_drop]
        omega
      · intro bt hbt
        rcases List.mem_cons.1 hbt with e | m
        · subst e
          rw [List.length_take]
          omega
        · exact ih2 bt m
      · have hsum : b * (l.length / b) = b + b * ((l.length - b) / b) := by
          rw [hdiv]; ring
        simp only [List.flatten_cons]
        rw [ih3, List.length_drop, hsum, List.take_add]

/-- C10: per epoch, the loader with `batch_size = 1024` and
`drop_last = True` yields exactly `floor(N/1024)` batches, each of
exactly 1024 windows; the batches exhaust precisely the first
`N - N mod 1024` entries of the shuffled pool, so the remaining
`N mod 1024` windows are excluded from that epoch. -/
theorem c10_batch_iterator (pool : List (List (List ℚ))) :
    (dropLastBatches batchSize pool).length = pool.length / 1024 ∧
    (∀ bt ∈ dropLastBatches batchSize pool, bt.length = 1024) ∧
    (dropLastBatches batchSize pool).flatten =
      pool.take (pool.length - pool.length % 1024) ∧
    pool.length - ((dropLastBatches batchSize pool).flatten).length =
      pool.length % 1024 := by
  obtain ⟨h1, h2, h3⟩ :=
    dropLastBatches_spec 1024 (by norm_num) pool.length pool le_rfl
  have hbs : batchSize = 1024 := rfl
  have hmul : 1024 * (pool.length / 1024) = pool.length - pool.length % 1024 := by
    omega
  refine ⟨by rw [hbs, h1], by rw [hbs]; exact h2, by rw [hbs, h3, hmul], ?_⟩
  rw [hbs, h3, hmul, List.length_take]
  omega

lemma entries_stack_forall (P : ℚ → Prop) (ts : List Tensor)
    (h : ∀ t ∈ ts, ∀ q ∈ t.entries, P q) :
    ∀ q ∈ (Tensor.stack ts).entries, P q := by
  induction ts with
  | nil =>
    intro q hq
    simp [Tensor.entries] at hq
  | cons t ts ih =>
    intro q hq
    have he : (Tensor.stack (t :: ts)).entries = t.entries ++ (Tensor.stack ts).entries := by
      simp [Tensor.entries]
    rw [he] at hq
    rcases List.mem_append.1 hq with h1 | h2
    · exact h t (by simp) q h1
    · exact ih (fun u hu q2 hq2 => h u (by simp [hu]) q2 hq2) q h2

lemma zerosT_entries (n b hd : ℕ) : ∀ q ∈ (zerosT n b hd).entries, q = 0 := by
  unfold zerosT
  apply entries_stack_forall
  intro t ht
  rw [List.eq_of_mem_replicate ht]
  apply entries_stack_forall
  intro u hu
  rw [List.eq_of_mem_replicate hu]
  apply entries_stack_forall
  intro v hv
  rw [List.eq_of_mem_replicate hv]
  intro q hq
  simp [Tensor.entries] at hq
  exact hq

lemma zerosT_shape (n b hd : ℕ) (hn : 0 < n) (hb : 0 < b) (hh : 0 < hd) :
    (zerosT n b hd).shape = [n, b, hd] := by
  obtain ⟨n2, rfl⟩ : ∃ n2, n = n2 + 1 := ⟨n - 1, by omega⟩
  obtain ⟨b2, rfl⟩ : ∃ b2, b = b2 + 1 := ⟨b - 1, by omega⟩
  obtain ⟨h2, rfl⟩ : ∃ h2, hd = h2 + 1 := ⟨hd - 1, by omega⟩
  simp [zerosT, Tensor.shape, List.replicate_succ]

/-- C7: for positive layer count, batch size and hidden width,
`init_hidden` returns all-zero state of the exact declared shape:
one `[n_layers, batch_size, hidden_dim]` tensor for the GRU variant and
a pair of two such tensors for the LSTM variant. -/
theorem c7_init_hidden (nLayers hiddenDim bs : ℕ)
    (hn : 0 < nLayers) (hh : 0 < hiddenDim) (hb : 0 < bs) :
    (GRUNet.init_hidden nLayers hiddenDim bs).shape = [nLayers, bs, hiddenDim] ∧
    (∀ q ∈ (GRUNet.init_hidden nLayers hiddenDim bs).entries, q = 0) ∧
    (LSTMNet.init_hidden nLayers hiddenDim bs).1.shape = [nLayers, bs, hiddenDim] ∧
    (LSTMNet.init_hidden nLayers hiddenDim bs).2.shape = [nLayers, bs, hiddenDim] ∧
    (∀ q ∈ (LSTMNet.init_hidden nLayers hiddenDim bs).1.entries, q = 0) ∧
    (∀ q ∈ (LSTMNet.init_hidden nLayers hiddenDim bs).2.entries, q = 0) := by
  refine ⟨?_, ?_, ?_, ?_, ?_, ?_⟩ <;>
    first
      | exact zerosT_shape nLayers bs hiddenDim hn hb hh
      | exact zerosT_entries nLayers bs hiddenDim

/-- C7 witness: two layers, hidden width 4, batch size 3. -/
theorem c7_witness :
    (0 < 2 ∧ 0 < 4 ∧ 0 < 3) ∧
    ((GRUNet.init_hidden 2 4 3).shape = [2, 3, 4] ∧
     (∀ q ∈ (GRUNet.init_hidden 2 4 3).entries, q = 0) ∧
     (LSTMNet.init_hidden 2 4 3).1.shape = [2, 3, 4] ∧
     (LSTMNet.init_hidden 2 4 3).2.shape = [2, 3, 4] ∧
     (∀ q ∈ (LSTMNet.init_hidden 2 4 3).1.entries, q = 0) ∧
     (∀ q ∈ (LSTMNet.init_hidden 2 4 3).2.entries, q = 0)) :=
  ⟨⟨by decide, by decide, by decide⟩,
   c7_init_hidden 2 4 3 (by decide) (by decide) (by decide)⟩

/-- A concrete stand-in recurrent layer for the C6 counterexample and
witness: it returns its input as the output sequence (shapes line up
for hidden width equal to the feature width). -/
def gru0 : Tensor → Tensor → Tensor × Tensor := fun x h => (x, h)

/-- A concrete stand-in LSTM layer for the C6 witness. -/
def lstm0 : Tensor → Tensor × Tensor → Tensor × (Tensor × Tensor) := fun x h => (x, h)

/-- A concrete `[2, 1, 1]` input batch: two windows, one time step, one
feature. -/
def xC : Tensor :=
  .stack [.stack [.stack [.scalar 1]], .stack [.stack [.scalar 2]]]

/-- C6 counterexample: on a batch of two windows, `forward` returns a
tensor of shape `[2, 1]` (the `nn.Linear(hidden_dim, 1)` projection
keeps a trailing dimension of size one), not the claimed 1-D shape
`(batch_size,) = [2]`. -/
theorem c6_counterexample :
    ((GRUNet.forward gru0 [1] 0 xC (zerosT 2 2 1)).1).shape = [2, 1] ∧
    ([2, 1] : List ℕ) ≠ [2] := by
  exact ⟨rfl, by decide⟩

/-- C6 (amended): for either variant, whenever the recurrent layer
returns a batch `bs` of per-window step sequences, `forward` applies a
zero-floor rectification to the final time step of each sequence
followed by one linear projection to a single scalar, returning one
scalar per window arranged with shape `[batch_size, 1]` (a trailing
dimension of one, not the flat `(batch_size,)`). -/
theorem c6_forward_shape
    (gruFn : Tensor → Tensor → Tensor × Tensor)
    (lstmFn : Tensor → Tensor × Tensor → Tensor × (Tensor × Tensor))
    (w w2 : List ℚ) (b b2 : ℚ) (x x2 : Tensor) (h : Tensor) (hp : Tensor × Tensor)
    (bs bs2 : List Tensor)
    (hg : (gruFn x h).1 = .stack bs) (hbs : bs ≠ [])
    (hl : (lstmFn x2 hp).1 = .stack bs2) (hbs2 : bs2 ≠ []) :
    (GRUNet.forward gruFn w b x h).1 =
      .stack (bs.map (fun e => fcRow w b (reluVec (lastStepOf e)))) ∧
    ((GRUNet.forward gruFn w b x h).1).shape = [bs.length, 1] ∧
    (∀ t ∈ bs.map (fun e => fcRow w b (reluVec (lastStepOf e))),
      ∃ q, t = Tensor.stack [.scalar q]) ∧
    (LSTMNet.forward lstmFn w2 b2 x2 hp).1 =
      .stack (bs2.map (fun e => fcRow w2 b2 (reluVec (lastStepOf e)))) ∧
    ((LSTMNet.forward lstmFn w2 b2 x2 hp).1).shape = [bs2.length, 1] ∧
    (∀ t ∈ bs2.map (fun e => fcRow w2 b2 (reluVec (lastStepOf e))),
      ∃ q, t = Tensor.stack [.scalar q]) := by
  have hgout : (GRUNet.forward gruFn w b x h).1 =
      .stack (bs.map (fun e => fcRow w b (reluVec (lastStepOf e)))) := by
    simp only [GRUNet.forward, fc2, relu2, sliceLast]
    rw [hg]
    simp [mapRows, List.map_map]
  have hlout : (LSTMNet.forward lstmFn w2 b2 x2 hp).1 =
      .stack (bs2.map (fun e => fcRow w2 b2 (reluVec (lastStepOf e)))) := by
    simp only [LSTMNet.forward, fc2, relu2, sliceLast]
    rw [hl]
    simp [mapRows, List.map_map]
  have hshape : ∀ (w3 : List ℚ) (b3 : ℚ) (cs : List Tensor), cs ≠ [] →
      (Tensor.stack (cs.map (fun e => fcRow w3 b3 (reluVec (lastStepOf e))))).shape
        = [cs.length, 1] := by
    intro w3 b3 cs hcs
    cases cs with
    | nil => exact absurd rfl hcs
    | cons c cs2 => simp [Tensor.shape, fcRow]
  have hsingle : ∀ (w3 : List ℚ) (b3 : ℚ) (cs : List Tensor),
      ∀ t ∈ cs.map (fun e => fcRow w3 b3 (reluVec (lastStepOf e))),
        ∃ q, t = Tensor.stack [.scalar q] := by
    intro w3 b3 cs t ht
    obtain ⟨e, _, rfl⟩ := List.mem_map.1 ht
    exact ⟨_, rfl⟩
  exact ⟨hgout, by rw [hgout]; exact hshape w b bs hbs, hsingle w b bs,
    hlout, by rw [hlout]; exact hshape w2 b2 bs2 hbs2, hsingle w2 b2 bs2⟩

/-- C6 witness: the amended statement at the concrete two-window batch
`xC`, identity recurrent stand-ins and weight `[1]`, bias `0`. -/
theorem c6_witness :
    ((gru0 xC (zerosT 2 2 1)).1 =
      .stack [.stack [.stack [.scalar 1]], .stack [.stack [.scalar 2]]] ∧
     ([Tensor.stack [.stack [.scalar 1]], .stack [.stack [.scalar 2]]] :
       List Tensor) ≠ [] ∧
     (lstm0 xC (zerosT 2 2 1, zerosT 2 2 1)).1 =
      .stack [.stack [.stack [.scalar 1]], .stack [.stack [.scalar 2]]]) ∧
    ((GRUNet.forward gru0 [1] 0 xC (zerosT 2 2 1)).1 =
      .stack (([Tensor.stack [.stack [.scalar 1]],
        .stack [.stack [.scalar 2]]]).map
          (fun e => fcRow [1] 0 (reluVec (lastStepOf e)))) ∧
     ((GRUNet.forward gru0 [1] 0 xC (zerosT 2 2 1)).1).shape =
       [([Tensor.stack [.stack [.scalar 1]],
          .stack [.stack [.scalar 2]]] : List Tensor).length, 1] ∧
     (∀ t ∈ ([Tensor.stack [.stack [.scalar 1]],
        .stack [.stack [.scalar 2]]]).map
          (fun e => fcRow [1] 0 (reluVec (lastStepOf e))),
       ∃ q, t = Tensor.stack [.scalar q]) ∧
     (LSTMNet.forward lstm0 [1] 0 xC (zerosT 2 2 1, zerosT 2 2 1)).1 =
      .stack (([Tensor.stack [.stack [.scalar 1]],
        .stack [.stack [.scalar 2]]]).map
          (fun e => fcRow [1] 0 (reluVec (lastStepOf e)))) ∧
     ((LSTMNet.forward lstm0 [1] 0 xC (zerosT 2 2 1, zerosT 2 2 1)).1).shape =
       [([Tensor.stack [.stack [.scalar 1]],
          .stack [.stack [.scalar 2]]] : List Tensor).length, 1] ∧
     (∀ t ∈ ([Tensor.stack [.stack [.scalar 1]],
        .stack [.stack [.scalar 2]]]).map
          (fun e => fcRow [1] 0 (reluVec (lastStepOf e))),
       ∃ q, t = Tensor.stack [.scalar q])) := by
  refine ⟨⟨rfl, by simp, rfl⟩, ?_⟩
  exact c6_forward_shape gru0 lstm0 [1] [1] 0 0 xC xC (zerosT 2 2 1)
    (zerosT 2 2 1, zerosT 2 2 1)
    [Tensor.stack [.stack [.scalar 1]], .stack [.stack [.scalar 2]]]
    [Tensor.stack [.stack [.scalar 1]], .stack [.stack [.scalar 2]]]
    rfl (by simp) rfl (by simp)

lemma preprocessAll_parts (L : ℕ) :
    ∀ (files : List (String × List (List ℚ))) (pre : PreResult),
      preprocessAll L files = Except.ok pre →
      pre.scalers = files.map (fun f => (f.1, fitScaler (col0 f.2))) ∧
      pre.pool.length = files.length ∧
      ∀ i, i < files.length →
        (pre.pool.getD i default).1 = (files.getD i default).1 := by
  intro files
  induction files with
  | nil =>
    intro pre hok
    simp only [preprocessAll] at hok
    injection hok with hok
    subst hok
    simp
  | cons f fs ih =>
    intro pre hok
    simp only [preprocessAll] at hok
    cases hpf : processFile (transformTable f.2) L with
    | error e => rw [hpf] at hok; simp at hok
    | ok r =>
      rw [hpf] at hok
      cases hrest : preprocessAll L fs with
      | error e => rw [hrest] at hok; simp at hok
      | ok rest =>
        rw [hrest] at hok
        injection hok with hok
        subst hok
        obtain ⟨hs, hlen, hidx⟩ := ih rest hrest
        refine ⟨by simp [hs], by simp [hlen], ?_⟩
        intro i hi
        cases i with
        | zero => rfl
        | succ j =>
          have hj : j < fs.length := by
            simp only [List.length_cons] at hi; omega
          simpa using hidx j hj

lemma lookupScaler_map_self :
    ∀ (files : List (String × List (List ℚ))), (files.map Prod.fst).Nodup →
      ∀ i, i < files.length →
        lookupScaler (files.map (fun f => (f.1, fitScaler (col0 f.2))))
            ((files.getD i default).1)
          = fitScaler (col0 (files.getD i default).2) := by
  intro files
  induction files with
  | nil => intro _ i hi; simp at hi
  | cons f fs ih =>
    intro hnd i hi
    cases i with
    | zero => simp [lookupScaler, List.find?]
    | succ j =>
      have hj : j < fs.length := by
        simp only [List.length_cons] at hi; omega
      have hkey : (fs.getD j default).1 ∈ fs.map Prod.fst := by
        rw [List.getD_eq_getElem fs default hj]
        exact List.mem_map.2 ⟨fs.getD j default,
          by rw [List.getD_eq_getElem fs default hj]; exact List.getElem_mem hj,
          by rw [List.getD_eq_getElem fs default hj]⟩
      have hne : f.1 ≠ (fs.getD j default).1 := by
        intro heq
        exact (List.nodup_cons.1 hnd).1 (heq ▸ hkey)
      have hbeq : (f.1 == (fs.getD j default).1) = false := by
        simpa using hne
      simp only [List.getD_cons_succ, List.map_cons]
      rw [show lookupScaler ((f.1, fitScaler (col0 f.2)) ::
          fs.map (fun g => (g.1, fitScaler (col0 g.2)))) ((fs.getD j default).1)
        = lookupScaler (fs.map (fun g => (g.1, fitScaler (col0 g.2))))
            ((fs.getD j default).1) from by
          unfold lookupScaler
          rw [List.find?_cons_of_neg _ (by simpa using hne)]]
      exact ih (List.nodup_cons.1 hnd).2 j hj

lemma evalOutputs_getD (model : List (List (List ℚ)) → List ℚ)
    (scalers : List (String × MinMaxScaler))
    (pool : List (String × List (List (List ℚ)) × List ℚ))
    (i : ℕ) (hi : i < pool.length) :
    (evalOutputs model scalers pool).getD i [] =
      (model (pool.getD i default).2.1).map
        (fun v => invScale (lookupScaler scalers (pool.getD i default).1) v) := by
  have hpd : pool.getD i default = pool[i] := List.getD_eq_getElem pool default hi
  rw [hpd]
  unfold evalOutputs
  rw [List.getD_eq_getElem?_getD, List.getElem?_map, List.getElem?_eq_getElem hi]
  rfl

lemma evalTargets_getD (scalers : List (String × MinMaxScaler))
    (pool : List (String × List (List (List ℚ)) × List ℚ))
    (i : ℕ) (hi : i < pool.length) :
    (evalTargets scalers pool).getD i [] =
      (pool.getD i default).2.2.map
        (fun v => invScale (lookupScaler scalers (pool.getD i default).1) v) := by
  have hpd : pool.getD i default = pool[i] := List.getD_eq_getElem pool default hi
  rw [hpd]
  unfold evalTargets
  rw [List.getD_eq_getElem?_getD, List.getElem?_map, List.getElem?_eq_getElem hi]
  rfl

/-- C5: for distinct file names, the label-scaler mapping built by
preprocessing is exactly one entry per file, keyed by that file and
holding the scaler fit on only that file (its raw consumption column),
and the evaluator inverse-scales both the predictions and the true
labels of every test-pool file with the scaler stored under that same
file name — never a scaler of a different file. -/
theorem c5_scaler_per_file
    (files : List (String × List (List ℚ))) (L : ℕ)
    (model : List (List (List ℚ)) → List ℚ) (pre : PreResult)
    (hnd : (files.map Prod.fst).Nodup)
    (hok : preprocessAll L files = Except.ok pre) :
    pre.scalers = files.map (fun f => (f.1, fitScaler (col0 f.2))) ∧
    pre.pool.length = files.length ∧
    ∀ i, i < pre.pool.length →
      (pre.pool.getD i default).1 = (files.getD i default).1 ∧
      lookupScaler pre.scalers ((pre.pool.getD i default).1)
        = fitScaler (col0 (files.getD i default).2) ∧
      (evalOutputs model pre.scalers pre.pool).getD i [] =
        (model (pre.pool.getD i default).2.1).map
          (fun v => invScale (fitScaler (col0 (files.getD i default).2)) v) ∧
      (evalTargets pre.scalers pre.pool).getD i [] =
        (pre.pool.getD i default).2.2.map
          (fun v => invScale (fitScaler (col0 (files.getD i default).2)) v) := by
  obtain ⟨hs, hlen, hidx⟩ := preprocessAll_parts L files pre hok
  refine ⟨hs, hlen, ?_⟩
  intro i hi
  have hif : i < files.length := by rw [hlen] at hi; exact hi
  have hname := hidx i hif
  have hlk : lookupScaler pre.scalers ((pre.pool.getD i default).1)
      = fitScaler (col0 (files.getD i default).2) := by
    rw [hname, hs]
    exact lookupScaler_map_self files hnd i hif
  refine ⟨hname, hlk, ?_, ?_⟩
  · rw [evalOutputs_getD model pre.scalers pre.pool i hi, hlk]
  · rw [evalTargets_getD pre.scalers pre.pool i hi, hlk]

/-- The two-file input for the C5 witness. -/
def filesW : List (String × List (List ℚ)) :=
  [("a", [[1], [2], [3]]), ("b", [[4], [5], [6], [7]])]

/-- A concrete stand-in trained model for the C5 witness: it predicts
the scaled value one for every window. -/
def modelW : List (List (List ℚ)) → List ℚ := fun ws => ws.map (fun _ => 1)

/-- The preprocessing result on `filesW` with lookback 2 (both files
have window counts 1 and 2, below ten, so all windows land in the test
pool). -/
def preW : PreResult :=
  ⟨[], [],
   [("a", [[[0], [(1 : ℚ)/2]]], [1]),
    ("b", [[[0], [(1 : ℚ)/3]], [[(1 : ℚ)/3], [(2 : ℚ)/3]]], [(2 : ℚ)/3, 1])],
   [("a", ⟨1, 3⟩), ("b", ⟨4, 7⟩)]⟩

set_option maxHeartbeats 2000000 in
lemma preW_ok : preprocessAll 2 filesW = Except.ok preW := by
  norm_num [preprocessAll, processFile, transformTable, columnOf, fitScaler,
    trScale, scaleFactor, windows, labelsOf, sliceToNeg, sliceFromNeg,
    testPortion, col0, preW, filesW, List.range_succ]

/-- C5 witness: the per-file scaler consistency at the concrete
two-file run. -/
theorem c5_witness :
    (filesW.map Prod.fst).Nodup ∧
    preprocessAll 2 filesW = Except.ok preW ∧
    (preW.scalers = filesW.map (fun f => (f.1, fitScaler (col0 f.2))) ∧
     preW.pool.length = filesW.length ∧
     ∀ i, i < preW.pool.length →
       (preW.pool.getD i default).1 = (filesW.getD i default).1 ∧
       lookupScaler preW.scalers ((preW.pool.getD i default).1)
         = fitScaler (col0 (filesW.getD i default).2) ∧
       (evalOutputs modelW preW.scalers preW.pool).getD i [] =
         (modelW (preW.pool.getD i default).2.1).map
           (fun v => invScale (fitScaler (col0 (filesW.getD i default).2)) v) ∧
       (evalTargets preW.scalers preW.pool).getD i [] =
         (preW.pool.getD i default).2.2.map
           (fun v => invScale (fitScaler (col0 (filesW.getD i default).2)) v)) := by
  refine ⟨by simp [filesW], preW_ok, ?_⟩
  exact c5_scaler_per_file filesW 2 modelW preW (by simp [filesW]) preW_ok

end GruPred
